import Mathlib

/-!
Verification of the NBA reference-data API (`main.py`): team/roster/standing
lookups, player and game search over in-memory tables, and the chat relay
that forwards role-tagged messages to an external model and extracts the
reply text.

The handlers are embedded as pure functions parameterised over the static
data tables (which live in separate data modules and are arbitrary here).
An HTTP error response is modelled as `Except.error (status, detail)`.
-/

namespace NbaApi

/-- Python `s.lower()` at the character-list level (`str.lower` maps each
character to its lower-case form). -/
def lowerStr (s : String) : List Char := s.data.map Char.toLower

/-- Python `s.upper()` at the character-list level. -/
def upperStr (s : String) : List Char := s.data.map Char.toUpper

/-- Python truthiness of an optional string parameter: `None` and the empty
string are falsy, any other string is truthy. -/
def truthy : Option String → Bool
  | none => false
  | some s => s ≠ ""

/-- Record for an entry of a team roster (`class Player`). -/
structure Player where
  name : String
  position : String
  height : String
  weight : String
  last_attended : String
  country : String
deriving Repr, DecidableEq

/-- Record for a team (`class Team`). -/
structure Team where
  id : Int
  name : String
  roster : List Player
deriving Repr, DecidableEq

/-- Record for a standings row (`class Standing`). -/
structure Standing where
  Team : String
  W : Int
  L : Int
  PCT : Float
  GB : String
  L10 : String
  Strk : String
deriving Repr

/-- Record for a scheduled game (`class Game`). -/
structure Game where
  team1 : String
  team2 : String
  date : String
  location : String
deriving Repr, DecidableEq

/-- An HTTP error (`HTTPException`): status code and detail message. -/
abbrev Http := Nat × String

/-- `GET /teams/\x7bteam_id\x7d` (`get_team_by_id`): first team whose `id`
equals the path parameter, else 404. -/
def get_team_by_id (teams : List Team) (team_id : Int) : Except Http Team :=
  match teams.find? (fun t => t.id == team_id) with
  | none => .error (404, "Team with ID " ++ toString team_id ++ " not found")
  | some t => .ok t

/-- `GET /teams/name/\x7bteam_name\x7d` (`get_team_by_name`): first team whose
lower-cased name equals the lower-cased path parameter, else 404. -/
def get_team_by_name (teams : List Team) (team_name : String) : Except Http Team :=
  match teams.find? (fun t => lowerStr t.name == lowerStr team_name) with
  | none => .error (404, "Team \x27" ++ team_name ++ "\x27 not found")
  | some t => .ok t

/-- `GET /teams/\x7bteam_id\x7d/roster` (`get_team_roster`): same lookup as
`get_team_by_id`, returning the roster field. -/
def get_team_roster (teams : List Team) (team_id : Int) : Except Http (List Player) :=
  match teams.find? (fun t => t.id == team_id) with
  | none => .error (404, "Team with ID " ++ toString team_id ++ " not found")
  | some t => .ok t.roster

/-- `GET /teams/\x7bteam_id\x7d/standing` (`get_team_standing`): looks the team
up by id, then scans the Eastern standings table for an exact string match on
the `Team` field.  The Western table (`west`) is a module-level global the
handler never reads; it is carried as a parameter to state that fact. -/
def get_team_standing (teams : List Team) (east west : List Standing) (team_id : Int) :
    Except Http (String × Standing) :=
  match teams.find? (fun t => t.id == team_id) with
  | none => .error (404, "Team with ID " ++ toString team_id ++ " not found")
  | some t =>
    match east.find? (fun s => s.Team == t.name) with
    | none => .error (404, "Standing data not found for " ++ t.name)
    | some s => .ok (t.name, s)

/-- The `match` flag computed for one player in `search_players`: it starts
`True` and each of the three `if <param> and <needle> not in <field>` guards
can set it `False`.  Name and country are compared lower-cased, position is
compared upper-cased; Python substring containment is list-infix on the
character lists. -/
def player_match (name position country : Option String) (p : Player) : Bool :=
  (!truthy name || decide (lowerStr (name.getD "") <:+: lowerStr p.name))
    && (!truthy position || decide (upperStr (position.getD "") <:+: upperStr p.position))
    && (!truthy country || decide (lowerStr (country.getD "") <:+: lowerStr p.country))

/-- The `results` list built by the nested loops of `search_players`: for every
team, for every player of its roster, the pair `(player, team name)` is
appended when the `match` flag survives. -/
def search_players_results (teams : List Team) (name position country : Option String) :
    List (Player × String) :=
  teams.flatMap fun t =>
    (t.roster.filter (player_match name position country)).map fun p => (p, t.name)

/-- `GET /search/players` (`search_players`): 404 when `results` is empty,
otherwise the pair `(count, results)` with `count = len(results)`. -/
def search_players (teams : List Team) (name position country : Option String) :
    Except Http (Nat × List (Player × String)) :=
  let results := search_players_results teams name position country
  if results.isEmpty then .error (404, "No players found matching the criteria")
  else .ok (results.length, results)

/-- The `match` flag computed for one game in `search_games`: the team filter
tests lower-cased substring containment in `team1.lower() + team2.lower()`,
the date filter tests string equality. -/
def game_match (team date : Option String) (g : Game) : Bool :=
  (!truthy team || decide (lowerStr (team.getD "") <:+: (lowerStr g.team1 ++ lowerStr g.team2)))
    && (!truthy date || date.getD "" == g.date)

/-- The `results` list built by the loop of `search_games`. -/
def search_games_results (games : List Game) (team date : Option String) : List Game :=
  games.filter (game_match team date)

/-- `GET /games/search` (`search_games`): 404 when `results` is empty,
otherwise the matching games. -/
def search_games (games : List Game) (team date : Option String) :
    Except Http (List Game) :=
  let results := search_games_results games team date
  if results.isEmpty then .error (404, "No games found matching the criteria")
  else .ok results

/-- An inbound chat message (`class ChatMessage`). -/
structure ChatMessage where
  role : String
  content : String
deriving Repr, DecidableEq

/-- The inbound chat request body (`class ChatRequest`). -/
structure ChatRequest where
  messages : List ChatMessage
deriving Repr, DecidableEq

/-- The endpoint's response body (`class ChatResponse`). -/
structure ChatResponse where
  response : String
deriving Repr, DecidableEq

/-- One element of the structured content list sent for a user message:
the dict `\x7b"type": "text", "text": <content>\x7d`. -/
structure TextPart where
  type : String
  text : String
deriving Repr, DecidableEq

/-- The content field of an outbound message: either a plain string (system
and assistant messages) or a list of text parts (user messages). -/
inductive WxContent where
  | plain (s : String)
  | parts (ps : List TextPart)
deriving Repr, DecidableEq

/-- An outbound message in the external service's schema: a dict with a
`role` and a `content` field. -/
structure WxMessage where
  role : String
  content : WxContent
deriving Repr, DecidableEq

/-- The `messages` list built by the `for msg in request.messages` loop of
`chat`: an `if`/`elif`/`elif` chain on the role appends at most one outbound
message per inbound message; a role matching no branch appends nothing. -/
def convert_messages : List ChatMessage → List WxMessage
  | [] => []
  | m :: rest =>
    (if m.role == "system" then [⟨"system", .plain m.content⟩]
     else if m.role == "user" then [⟨"user", .parts [⟨"text", m.content⟩]⟩]
     else if m.role == "assistant" then [⟨"assistant", .plain m.content⟩]
     else []) ++ convert_messages rest

/-- The `message` object inside one element of a `choices` collection. -/
structure ChoiceMsg where
  content : String
deriving Repr, DecidableEq

/-- One element of a `choices` collection. -/
structure Choice where
  message : ChoiceMsg
deriving Repr, DecidableEq

/-- The shapes the external response value can take, as a tagged variant:
a structured object carrying a `choices` attribute, a dict that may or may
not hold a `"choices"` key, or any other value.  `rendered` is `str(response)`,
the string rendering of the whole raw value. -/
inductive WxResponse where
  | structured (choices : List Choice) (rendered : String)
  | dict (choices : Option (List Choice)) (rendered : String)
  | other (rendered : String)
deriving Repr, DecidableEq

/-- The response-text extraction of `chat`:
`if hasattr(response, "choices") and len(response.choices) > 0` takes
`choices[0].message.content`; `elif isinstance(response, dict) and "choices"
in response` takes `response["choices"][0]["message"]["content"]` (an empty
list there raises an IndexError, modelled as `.error`); `else` falls back to
`str(response)`. -/
def extract_text : WxResponse → Except String String
  | .structured (c :: _) _ => .ok c.message.content
  | .structured [] rendered => .ok rendered
  | .dict (some (c :: _)) _ => .ok c.message.content
  | .dict (some []) _ => .error "list index out of range"
  | .dict none rendered => .ok rendered
  | .other rendered => .ok rendered

/-- `POST /chat` (`chat`): the whole body runs inside `try`/`except`.
Client construction (`get_watsonx_client` and the `ModelInference` setup) is
abstracted as `mkClient`, the external call `model.chat(messages=messages)`
as `call`; any exception anywhere in the pipeline is caught and re-raised as
HTTP 500 with detail `"Chat error: " + str(e)`. -/
def chat_endpoint (mkClient : Except String Unit)
    (call : List WxMessage → Except String WxResponse)
    (req : ChatRequest) : Except Http ChatResponse :=
  match Except.bind mkClient (fun _ =>
          Except.bind (call (convert_messages req.messages)) (fun resp =>
            Except.map ChatResponse.mk (extract_text resp))) with
  | .ok r => .ok r
  | .error e => .error (500, "Chat error: " ++ e)

/-- The player filter as the spec words it, for comparison with
`player_match`: each supplied filter is a case-insensitive substring match
(lower-cased on both sides) against the corresponding field, an absent
filter is vacuously true. -/
def player_matches_spec (name position country : Option String) (p : Player) : Bool :=
  (match name with
   | none => true
   | some s => decide (lowerStr s <:+: lowerStr p.name))
    && (match position with
        | none => true
        | some s => decide (lowerStr s <:+: lowerStr p.position))
    && (match country with
        | none => true
        | some s => decide (lowerStr s <:+: lowerStr p.country))

/-! ### Helper lemmas -/

/-- `Char.ofNat` inverts `Char.toNat` on valid code points below the
surrogate range. -/
theorem char_toNat_ofNat (n : Nat) (h : n < 55296) : (Char.ofNat n).toNat = n := by
  simp [Char.ofNat, Char.ofNatAux, Nat.isValidChar, h]
  simp [Char.toNat, UInt32.toNat]

/-- Lower-casing absorbs a preceding upper-casing (on the basic latin
range that `Char.toUpper` affects). -/
theorem char_toLower_toUpper (c : Char) : (c.toUpper).toLower = c.toLower := by
  simp only [Char.toUpper, Char.toLower, Char.toNat]
  by_cases h : 97 ≤ c.val.toNat ∧ c.val.toNat ≤ 122
  · rw [if_pos h]
    have hv : c.val.toNat - 32 < 55296 := by omega
    have ht := char_toNat_ofNat (c.val.toNat - 32) hv
    simp only [Char.toNat] at ht
    rw [ht]
    rw [if_pos (by omega)]
    rw [if_neg (by omega)]
    have hc : c.val.toNat - 32 + 32 = c.val.toNat := by omega
    rw [hc]
    exact Char.ofNat_toNat c
  · rw [if_neg h]

/-- Upper-casing absorbs a preceding lower-casing. -/
theorem char_toUpper_toLower (c : Char) : (c.toLower).toUpper = c.toUpper := by
  simp only [Char.toUpper, Char.toLower, Char.toNat]
  by_cases h : 65 ≤ c.val.toNat ∧ c.val.toNat ≤ 90
  · rw [if_pos h]
    have hv : c.val.toNat + 32 < 55296 := by omega
    have ht := char_toNat_ofNat (c.val.toNat + 32) hv
    simp only [Char.toNat] at ht
    rw [ht]
    rw [if_pos (by omega)]
    rw [if_neg (by omega)]
    have hc : c.val.toNat + 32 - 32 = c.val.toNat := by omega
    rw [hc]
    exact Char.ofNat_toNat c
  · rw [if_neg h]

/-- Substring containment is preserved by mapping a function over both
character lists. -/
theorem sub_map {a b : List Char} (f : Char → Char) (h : a <:+: b) :
    a.map f <:+: b.map f := by
  obtain ⟨s, t, rfl⟩ := h
  exact ⟨s.map f, t.map f, by simp⟩

/-- Upper-cased substring containment and lower-cased substring containment
agree: both express case-insensitive substring matching. -/
theorem upper_sub_iff_lower_sub (n h : String) :
    (upperStr n <:+: upperStr h) ↔ (lowerStr n <:+: lowerStr h) := by
  unfold upperStr lowerStr
  constructor
  · intro hs
    have hmap := sub_map Char.toLower hs
    rw [List.map_map, List.map_map] at hmap
    have hfun : Char.toLower ∘ Char.toUpper = Char.toLower := funext char_toLower_toUpper
    rwa [hfun] at hmap
  · intro hs
    have hmap := sub_map Char.toUpper hs
    rw [List.map_map, List.map_map] at hmap
    have hfun : Char.toUpper ∘ Char.toLower = Char.toUpper := funext char_toUpper_toLower
    rwa [hfun] at hmap

/-- Lower-casing a concatenation is the concatenation of the lower-casings
(Python `(a + b).lower() == a.lower() + b.lower()`). -/
theorem lowerStr_append (a b : String) : lowerStr (a ++ b) = lowerStr a ++ lowerStr b := by
  simp [lowerStr]

/-- The empty character list is a substring of every character list. -/
theorem nil_sub (l : List Char) : [] <:+: l := ⟨[], l, by simp⟩

/-- `lowerStr` of the empty string is the empty list. -/
theorem lowerStr_empty : lowerStr "" = [] := rfl

/-- The `match` flag of `search_players` coincides with the spec's wording of
the three filters: Python truthiness makes an empty-string filter vacuous
(but the empty string is a substring of everything, so the spec's reading
agrees), and the upper-cased position comparison is the same test as the
lower-cased one. -/
theorem player_match_eq_spec (name position country : Option String) (p : Player) :
    player_match name position country p = player_matches_spec name position country p := by
  unfold player_match player_matches_spec
  have hlow : ∀ (o : Option String) (field : String),
      (!truthy o || decide (lowerStr (o.getD "") <:+: lowerStr field))
        = (match o with
           | none => true
           | some s => decide (lowerStr s <:+: lowerStr field)) := by
    intro o field
    rcases o with _ | s
    · rfl
    · by_cases h : s = ""
      · subst h
        simp [truthy, lowerStr_empty, nil_sub]
      · simp [truthy, h]
  have hup : ∀ (o : Option String) (field : String),
      (!truthy o || decide (upperStr (o.getD "") <:+: upperStr field))
        = (match o with
           | none => true
           | some s => decide (lowerStr s <:+: lowerStr field)) := by
    intro o field
    rcases o with _ | s
    · rfl
    · by_cases h : s = ""
      · subst h
        simp [truthy, lowerStr_empty, nil_sub, upperStr]
      · have ht : truthy (some s) = true := by simp [truthy, h]
        simp only [ht, Bool.not_true, Bool.false_or, Option.getD_some]
        exact decide_eq_decide.mpr (upper_sub_iff_lower_sub s field)
  rw [hlow name p.name, hup position p.position, hlow country p.country]

/-- The `match` flag of `search_games` holds exactly when the team filter (if
supplied) is a lower-cased substring of the concatenated team names and the
date filter (if supplied and non-empty) equals the game's date. -/
theorem game_match_iff (team date : Option String) (g : Game) :
    game_match team date g = true ↔
      (∀ s, team = some s → lowerStr s <:+: lowerStr (g.team1 ++ g.team2))
      ∧ (∀ s, date = some s → s ≠ "" → s = g.date) := by
  unfold game_match
  rw [lowerStr_append]
  rcases team with _ | ts <;> rcases date with _ | ds
  · simp [truthy]
  · by_cases h : ds = ""
    · subst h
      simp [truthy]
    · simp [truthy, h, beq_iff_eq]
  · by_cases h : ts = ""
    · subst h
      simp [truthy, lowerStr_empty, nil_sub]
    · simp [truthy, h]
  · by_cases ht : ts = "" <;> by_cases hd : ds = ""
    · subst ht; subst hd
      simp [truthy, lowerStr_empty, nil_sub]
    · subst ht
      simp [truthy, lowerStr_empty, nil_sub, hd, beq_iff_eq]
    · subst hd
      simp [truthy, ht]
    · simp [truthy, ht, hd, beq_iff_eq]

/-- C1 (counterexample): with the date filter supplied as the empty string,
`search_games` includes a game whose date is not equal to the filter, so
"every supplied date filter requires exact string equality" fails as stated. -/
theorem C1_empty_date_counterexample :
    (⟨"A", "B", "2024-01-01", "X"⟩ : Game)
        ∈ search_games_results [⟨"A", "B", "2024-01-01", "X"⟩] none (some "")
      ∧ ¬(("" : String) = (⟨"A", "B", "2024-01-01", "X"⟩ : Game).date) := by
  decide

/-- C1 (amended): a game is included by `search_games` iff it is in the games
table, every supplied team filter is case-insensitively a substring of the
concatenation of `team1` and `team2` (so a boundary-spanning search string
matches), and every supplied non-empty date filter equals the game's date
exactly (an empty-string date filter, being falsy, imposes no constraint). -/
theorem C1_search_games_filter (games : List Game) (team date : Option String) (g : Game) :
    g ∈ search_games_results games team date ↔
      g ∈ games
      ∧ (∀ s, team = some s → lowerStr s <:+: lowerStr (g.team1 ++ g.team2))
      ∧ (∀ s, date = some s → s ≠ "" → s = g.date) := by
  unfold search_games_results
  rw [List.mem_filter, game_match_iff]

/-- C2: `search_players` returns, team by team and roster-position by
roster-position, exactly the `(player, team name)` pairs whose player passes
every supplied filter as a case-insensitive substring match on the
corresponding field; with no filters it returns every player of every team
exactly once, paired with the team's name. -/
theorem C2_search_players_spec (teams : List Team) (name position country : Option String) :
    search_players_results teams name position country
      = teams.flatMap (fun t =>
          (t.roster.filter (player_matches_spec name position country)).map fun p => (p, t.name))
    ∧ search_players_results teams none none none
      = teams.flatMap fun t => t.roster.map fun p => (p, t.name) := by
  constructor
  · unfold search_players_results
    have h : player_match name position country = player_matches_spec name position country :=
      funext (player_match_eq_spec name position country)
    rw [h]
  · unfold search_players_results
    have h : player_match none none none = fun _ : Player => true := rfl
    rw [h]
    simp

/-- C4: the relay builds the outbound list in order by mapping each inbound
message through its role: `"system"` and `"assistant"` keep plain text
content, `"user"` content is wrapped as the one-element text-part list, and
any other role contributes no outbound message. -/
theorem C4_relay_role_mapping (msgs : List ChatMessage) :
    convert_messages msgs = msgs.flatMap fun m =>
      if m.role = "system" then [⟨"system", WxContent.plain m.content⟩]
      else if m.role = "user" then [⟨"user", WxContent.parts [⟨"text", m.content⟩]⟩]
      else if m.role = "assistant" then [⟨"assistant", WxContent.plain m.content⟩]
      else [] := by
  induction msgs with
  | nil => rfl
  | cons m rest ih =>
    simp only [convert_messages, ih, List.flatMap_cons, beq_iff_eq]

/-- C5: reply text extraction tries the three tiers in a fixed order: a
structured object with a non-empty `choices` collection yields
`choices[0].message.content`; otherwise a dict holding a `"choices"` key
yields the same path through mapping access; any remaining shape (including
a structured object whose `choices` is empty, which no tier matches) falls
back to the string rendering of the whole raw response. -/
theorem C5_extract_three_tiers :
    (∀ (c : Choice) (cs : List Choice) (rendered : String),
        extract_text (.structured (c :: cs) rendered) = .ok c.message.content)
    ∧ (∀ (c : Choice) (cs : List Choice) (rendered : String),
        extract_text (.dict (some (c :: cs)) rendered) = .ok c.message.content)
    ∧ (∀ rendered : String, extract_text (.structured [] rendered) = .ok rendered)
    ∧ (∀ rendered : String, extract_text (.dict none rendered) = .ok rendered)
    ∧ (∀ rendered : String, extract_text (.other rendered) = .ok rendered) :=
  ⟨fun _ _ _ => rfl, fun _ _ _ => rfl, fun _ => rfl, fun _ => rfl, fun _ => rfl⟩

/-- C9: the roster endpoint is the by-id endpoint with the roster projected
out — same lookup, same order of players, and the two endpoints fail (with
the same 404) on exactly the same ids. -/
theorem C9_roster_round_trip (teams : List Team) (team_id : Int) :
    get_team_roster teams team_id = (get_team_by_id teams team_id).map Team.roster
    ∧ (∀ e, get_team_by_id teams team_id = .error e
        ↔ get_team_roster teams team_id = .error e) := by
  unfold get_team_roster get_team_by_id
  cases teams.find? fun t => t.id == team_id <;> simp [Except.map]

/-- C3: resolving a team's standing consults the Eastern table only, by exact
string equality on the `Team` field: when the id is present but no Eastern
row matches the team's name the handler answers 404 naming the team, and the
result never depends on the Western table, even when a matching row sits
there. -/
theorem C3_standing_eastern_only (teams : List Team) (east west : List Standing)
    (team_id : Int) (t : Team)
    (hfind : teams.find? (fun x => x.id == team_id) = some t) :
    ((∀ s ∈ east, s.Team ≠ t.name) →
        get_team_standing teams east west team_id
          = .error (404, "Standing data not found for " ++ t.name))
    ∧ (∀ s, east.find? (fun s => s.Team == t.name) = some s →
        get_team_standing teams east west team_id = .ok (t.name, s))
    ∧ (∀ west' : List Standing,
        get_team_standing teams east west team_id
          = get_team_standing teams east west' team_id) := by
  refine ⟨?_, ?_, fun _ => rfl⟩
  · intro hnone
    have h : east.find? (fun s => s.Team == t.name) = none := by
      rw [List.find?_eq_none]
      intro s hs
      simpa using hnone s hs
    simp [get_team_standing, hfind, h]
  · intro s hsome
    simp [get_team_standing, hfind, hsome]

/-- C3 witness: a team present in the team table whose name has no Eastern
row gets a 404 naming it, although the Western table holds a matching row. -/
theorem C3_standing_witness :
    get_team_standing [⟨1, "Lakers", []⟩] []
        [⟨"Lakers", 10, 2, 0.8, "-", "8-2", "W4"⟩] 1
      = .error (404, "Standing data not found for Lakers") :=
  (C3_standing_eastern_only [⟨1, "Lakers", []⟩] []
      [⟨"Lakers", 10, 2, 0.8, "-", "8-2", "W4"⟩] 1 ⟨1, "Lakers", []⟩ rfl).1
    (by simp)

/-- C6: every failure in the chat pipeline — client construction, the
external call, or reply extraction — surfaces as HTTP 500 with detail
`"Chat error: "` followed by the original message; the endpoint always
answers (ok, or a 500 of exactly that shape), and its answer depends on the
external call only through its value at the converted message list, so the
call is consulted once and never retried with different input. -/
theorem C6_chat_error_500 (mkClient : Except String Unit)
    (call : List WxMessage → Except String WxResponse) (req : ChatRequest) :
    (∀ e, mkClient = .error e →
        chat_endpoint mkClient call req = .error (500, "Chat error: " ++ e))
    ∧ (∀ e, mkClient = .ok () → call (convert_messages req.messages) = .error e →
        chat_endpoint mkClient call req = .error (500, "Chat error: " ++ e))
    ∧ (∀ resp e, mkClient = .ok () → call (convert_messages req.messages) = .ok resp →
        extract_text resp = .error e →
        chat_endpoint mkClient call req = .error (500, "Chat error: " ++ e))
    ∧ ((∃ r, chat_endpoint mkClient call req = .ok r)
        ∨ (∃ e, chat_endpoint mkClient call req = .error (500, "Chat error: " ++ e)))
    ∧ (∀ call' : List WxMessage → Except String WxResponse,
        call (convert_messages req.messages) = call' (convert_messages req.messages) →
        chat_endpoint mkClient call req = chat_endpoint mkClient call' req) := by
  refine ⟨?_, ?_, ?_, ?_, ?_⟩
  · intro e he
    simp [chat_endpoint, he, Except.bind]
  · intro e hc hcall
    simp [chat_endpoint, hc, hcall, Except.bind]
  · intro resp e hc hcall hex
    simp [chat_endpoint, hc, hcall, hex, Except.bind, Except.map]
  · rcases hc : mkClient with e | u
    · exact .inr ⟨e, by simp [chat_endpoint, hc, Except.bind]⟩
    · rcases hcall : call (convert_messages req.messages) with e | resp
      · exact .inr ⟨e, by simp [chat_endpoint, hc, hcall, Except.bind]⟩
      · rcases hex : extract_text resp with e | txt
        · exact .inr ⟨e, by simp [chat_endpoint, hc, hcall, hex, Except.bind, Except.map]⟩
        · exact .inl ⟨⟨txt⟩, by simp [chat_endpoint, hc, hcall, hex, Except.bind, Except.map]⟩
  · intro call' h
    simp [chat_endpoint, h]

/-- C6 witness: a failing client construction yields exactly the 500 with the
prefixed original message. -/
theorem C6_chat_error_witness :
    chat_endpoint (.error "boom") (fun _ => .ok (.other "x")) ⟨[]⟩
      = .error (500, "Chat error: boom") :=
  (C6_chat_error_500 (.error "boom") (fun _ => .ok (.other "x")) ⟨[]⟩).1 "boom" rfl

/-- C7: both search endpoints report an empty result set as a 404 with a
descriptive message, and answer 200 with the results exactly when the result
set is non-empty. -/
theorem C7_empty_search_404 (teams : List Team) (games : List Game)
    (name position country team date : Option String) :
    (search_players_results teams name position country = [] →
        search_players teams name position country
          = .error (404, "No players found matching the criteria"))
    ∧ (search_players_results teams name position country ≠ [] →
        search_players teams name position country
          = .ok ((search_players_results teams name position country).length,
                 search_players_results teams name position country))
    ∧ (search_games_results games team date = [] →
        search_games games team date
          = .error (404, "No games found matching the criteria"))
    ∧ (search_games_results games team date ≠ [] →
        search_games games team date = .ok (search_games_results games team date)) := by
  refine ⟨?_, ?_, ?_, ?_⟩ <;> intro h <;>
    simp [search_players, search_games, List.isEmpty_iff, h]

/-- C7 witness: with empty tables both searches return their 404s, and with a
one-game table and no filters the games search returns the game. -/
theorem C7_empty_search_witness :
    search_players [] none none none
        = .error (404, "No players found matching the criteria")
    ∧ search_games [] none none
        = .error (404, "No games found matching the criteria")
    ∧ search_games [⟨"A", "B", "d", "X"⟩] none none = .ok [⟨"A", "B", "d", "X"⟩] :=
  ⟨(C7_empty_search_404 [] [] none none none none none).1 rfl,
   (C7_empty_search_404 [] [] none none none none none).2.2.1 rfl,
   (C7_empty_search_404 [] [⟨"A", "B", "d", "X"⟩] none none none none none).2.2.2
     (by decide)⟩

/-- C8: team lookup by name ignores letter case: any team present in the
table is found under every case variant of its name, all variants resolving
to one and the same first case-insensitive match, and a name with no
case-insensitive match yields a 404 naming the query. -/
theorem C8_team_by_name_case_insensitive (teams : List Team) (t : Team) (q : String) :
    (t ∈ teams → ∃ t₀, t₀ ∈ teams ∧ lowerStr t₀.name = lowerStr t.name
        ∧ ∀ v : String, lowerStr v = lowerStr t.name → get_team_by_name teams v = .ok t₀)
    ∧ ((∀ u ∈ teams, lowerStr u.name ≠ lowerStr q) →
        get_team_by_name teams q = .error (404, "Team \x27" ++ q ++ "\x27 not found")) := by
  constructor
  · intro hmem
    have hsome : (teams.find? fun u => lowerStr u.name == lowerStr t.name).isSome := by
      rw [List.find?_isSome]
      exact ⟨t, hmem, by simp⟩
    rcases ho : teams.find? fun u => lowerStr u.name == lowerStr t.name with _ | t₀
    · rw [ho] at hsome
      simp at hsome
    · refine ⟨t₀, List.mem_of_find?_eq_some ho, by simpa using List.find?_some ho, ?_⟩
      intro v hv
      unfold get_team_by_name
      rw [show (fun u : Team => lowerStr u.name == lowerStr v)
            = fun u : Team => lowerStr u.name == lowerStr t.name by rw [hv], ho]
  · intro hnone
    unfold get_team_by_name
    have h : (teams.find? fun u => lowerStr u.name == lowerStr q) = none := by
      rw [List.find?_eq_none]
      intro u hu
      simpa using hnone u hu
    rw [h]

/-- C8 witness: "LAKERS" and "lakers" both find the team stored as "Lakers",
and an unmatched name yields the 404. -/
theorem C8_team_by_name_witness :
    get_team_by_name [⟨1, "Lakers", []⟩] "LAKERS" = .ok ⟨1, "Lakers", []⟩
    ∧ get_team_by_name [⟨1, "Lakers", []⟩] "lakers" = .ok ⟨1, "Lakers", []⟩
    ∧ get_team_by_name [⟨1, "Lakers", []⟩] "Bulls"
        = .error (404, "Team \x27Bulls\x27 not found") := by
  obtain ⟨t₀, hmem, -, hall⟩ :=
    (C8_team_by_name_case_insensitive [⟨1, "Lakers", []⟩] ⟨1, "Lakers", []⟩ "Bulls").1
      (by simp)
  have ht₀ : t₀ = ⟨1, "Lakers", []⟩ := by simpa using hmem
  subst ht₀
  refine ⟨hall "LAKERS" (by decide), hall "lakers" (by decide), ?_⟩
  exact (C8_team_by_name_case_insensitive [⟨1, "Lakers", []⟩] ⟨1, "Lakers", []⟩ "Bulls").2
    (by intro u hu; simp at hu; subst hu; decide)

/-- C10: a filter supplied as the empty string is falsy and so behaves
exactly like an absent filter, for each of the five search parameters; in
particular a players search with only an empty name filter still returns
every player of every team. -/
theorem C10_empty_string_filter_absent (teams : List Team) (games : List Game)
    (name position country team date : Option String) :
    search_players teams (some "") position country
        = search_players teams none position country
    ∧ search_players teams name (some "") country
        = search_players teams name none country
    ∧ search_players teams name position (some "")
        = search_players teams name position none
    ∧ search_games games (some "") date = search_games games none date
    ∧ search_games games team (some "") = search_games games team none
    ∧ search_players_results teams (some "") none none
        = teams.flatMap fun t => t.roster.map fun p => (p, t.name) := by
  refine ⟨rfl, rfl, rfl, rfl, rfl, ?_⟩
  unfold search_players_results
  have h : player_match (some "") none none = fun _ : Player => true := by
    funext p
    simp [player_match, truthy, lowerStr_empty, nil_sub]
  rw [h]
  simp

end NbaApi
